import Mathlib

/- Verification of the in-process publish/subscribe message broker of the
MyGo repository (package mq, with its concurrency.SafeMap collaborator).
The Go source is shallowly embedded: the sharded concurrent map becomes a
finite partial map, wall-clock readings become explicit integer nanosecond
parameters, goroutine spawns become explicit invocation records, and the
stateful API becomes pure state-passing functions. -/

namespace MyGo

/-- Shallow embedding of the sharded concurrent map `concurrency.SafeMap`.
Sharding and locking are thread-safety implementation details; the
sequential semantics the broker relies on is that of a finite partial map,
modelled as a function into `Option`. -/
abbrev SMap (K V : Type) := K → Option V

/-- Model of `concurrency.NewSafeMap`: the freshly allocated map is empty. -/
def SMap.empty {K V : Type} : SMap K V := fun _ => none

/-- Model of `SafeMap.Get`: `some v` corresponds to the Go return `(v, true)`
and `none` to `(zero, false)`. -/
def SMap.Get {K V : Type} (m : SMap K V) (key : K) : Option V := m key

/-- Model of `SafeMap.Set`: stores `value` under `key`. -/
def SMap.Set {K V : Type} [DecidableEq K] (m : SMap K V) (key : K) (value : V) : SMap K V :=
  fun k => if k = key then some value else m k

/-- Model of `SafeMap.Delete`: removes `key`. -/
def SMap.Delete {K V : Type} [DecidableEq K] (m : SMap K V) (key : K) : SMap K V :=
  fun k => if k = key then none else m k

/-- Model of `SafeMap.Update`: the updater receives the stored value (`none`
stands for the Go zero value of an absent key, which is `nil` for the map
values the registry stores) and returns the new value together with a keep
flag; a `false` flag deletes the key, a `true` flag stores the new value. -/
def SMap.Update {K V : Type} [DecidableEq K] (m : SMap K V) (key : K)
    (updater : Option V → V × Bool) : SMap K V :=
  fun k =>
    if k = key then
      let r := updater (m key)
      if r.2 then some r.1 else none
    else m k

/-- Reading a key just stored. -/
theorem SMap.Get_Set_self {K V : Type} [DecidableEq K] (m : SMap K V) (k : K) (v : V) :
    (m.Set k v).Get k = some v := by
  simp [SMap.Get, SMap.Set]

/-- Reading another key after a store. -/
theorem SMap.Get_Set_ne {K V : Type} [DecidableEq K] (m : SMap K V) (k k2 : K) (v : V)
    (h : k2 ≠ k) : (m.Set k v).Get k2 = m.Get k2 := by
  simp [SMap.Get, SMap.Set, h]

/-- Reading a key just deleted. -/
theorem SMap.Get_Delete_self {K V : Type} [DecidableEq K] (m : SMap K V) (k : K) :
    (m.Delete k).Get k = none := by
  simp [SMap.Get, SMap.Delete]

/-- Reading another key after a delete. -/
theorem SMap.Get_Delete_ne {K V : Type} [DecidableEq K] (m : SMap K V) (k k2 : K)
    (h : k2 ≠ k) : (m.Delete k).Get k2 = m.Get k2 := by
  simp [SMap.Get, SMap.Delete, h]

/-- Inserting a key into a Go keyed set (`map` with empty-struct values):
`old[k] = ...` appends the key when it is not already present. -/
def goSetInsert (s : List String) (a : String) : List String :=
  if a ∈ s then s else s ++ [a]

/-- Model of `delete(old, k)` on a Go keyed set: the key is removed. -/
def goSetDelete (s : List String) (a : String) : List String :=
  s.filter (fun x => decide (x ≠ a))

/-- Model of Go `strings.HasPrefix`, stated over the character lists of the
two strings so that it evaluates inside the kernel. -/
def goHasPrefix (s pre : String) : Bool :=
  decide (s.data.take pre.data.length = pre.data)

/-- Split of a character list at every occurrence of a separator, keeping
empty segments, as Go `strings.Split` does. -/
def splitOnChar (sep : Char) (l : List Char) : List (List Char) :=
  l.foldr
    (fun c acc =>
      match acc with
      | [] => [[c]]
      | cur :: rest => if c = sep then [] :: cur :: rest else (c :: cur) :: rest)
    [[]]

/-- Model of Go `strings.Split` with a one-character separator, stated over
character lists so that it evaluates inside the kernel; the empty string
splits to one empty segment, as in Go. -/
def goSplit (s : String) (sep : Char) : List String :=
  (splitOnChar sep s.data).map (fun cs => String.mk cs)

/-- Model of the Go string type `Topic` of mq/topic.go. -/
abbrev Topic := String

def TopicBroadcastPrefix : Topic := "broadcast/"

def TopicP2PPrefix : Topic := "p2p/"

def TopicDeadLetterPrefix : Topic := "deadLetter/"

/-- Model of `Topic.IsBroadcast`. -/
def Topic.IsBroadcast (t : Topic) : Bool := goHasPrefix t TopicBroadcastPrefix

/-- Model of `Topic.IsP2P`. -/
def Topic.IsP2P (t : Topic) : Bool := goHasPrefix t TopicP2PPrefix

/-- Model of `Topic.IsDeadLetter`. -/
def Topic.IsDeadLetter (t : Topic) : Bool := goHasPrefix t TopicDeadLetterPrefix

/-- Model of `Topic.Validate`: only the empty topic is rejected. -/
def Topic.Validate (t : Topic) : Except String Unit :=
  if t = "" then .error "topic can not be empty" else .ok ()

/-- Go `time.Time` readings, modelled as Unix nanosecond counts. -/
abbrev GoTime := Int

/-- Go `time.Duration`, modelled as a nanosecond count. -/
abbrev GoDuration := Int

/-- The mq constant `defaultMessageTTL = 1 * time.Hour`, in nanoseconds. -/
def defaultMessageTTL : GoDuration := 3600000000000

/-- Model of the `Message` struct. The commented-out `Status` field of the
source is omitted; `interface` metadata values are opaque to the broker and
modelled as strings; payload bytes are modelled as naturals. -/
structure Message where
  ID : String
  Topic : Topic
  SenderID : String
  Payload : List Nat
  Headers : List (String × String)
  Metadata : List (String × String)
  Delay : GoDuration
  CreatedAt : GoTime
  DeliverAt : GoTime
  TTL : GoDuration
  ExpiresAt : GoTime
deriving DecidableEq

/-- Model of `NewMessage`. The Go function reads the wall clock for both the
id (`time.Now().UnixNano()` printed with the format `msg_%d`) and the
timestamps; the parameter `now` stands for the observed reading. -/
def NewMessage (topic : Topic) (payload : List Nat) (now : GoTime) : Message :=
  { ID := "msg_" ++ toString now
    Topic := topic
    SenderID := ""
    Payload := payload
    Headers := []
    Metadata := []
    Delay := 0
    CreatedAt := now
    DeliverAt := now
    TTL := defaultMessageTTL
    ExpiresAt := now + defaultMessageTTL }

/-- Model of `Message.SetDelay`. -/
def Message.SetDelay (m : Message) (delay : GoDuration) : Message :=
  { m with Delay := delay, DeliverAt := m.CreatedAt + delay }

/-- Model of `Message.SetTTL`. -/
def Message.SetTTL (m : Message) (ttl : GoDuration) : Message :=
  { m with TTL := ttl, ExpiresAt := m.CreatedAt + ttl }

/-- Model of `Message.IsExpired`: `now.After(ExpiresAt)`. -/
def Message.IsExpired (m : Message) (now : GoTime) : Bool :=
  decide (m.ExpiresAt < now)

/-- Model of the `SubscriptionManager` struct: the two inverted indices.
The inner Go maps with empty-struct values are keyed sets, modelled as key
lists. -/
structure SubscriptionManager where
  topicSubscribers : SMap Topic (List String)
  subscriberTopics : SMap String (List Topic)

/-- Model of `NewSubscriptionManager`: both indices start empty. -/
def NewSubscriptionManager : SubscriptionManager :=
  { topicSubscribers := SMap.empty, subscriberTopics := SMap.empty }

/-- Model of `SubscriptionManager.AddSubscription`: the subscriber id is
inserted into the topic bucket and the topic into the subscriber bucket;
the Go `nil` allocation check becomes starting from the empty list. -/
def SubscriptionManager.AddSubscription (r : SubscriptionManager)
    (subscriberID : String) (topic : Topic) : SubscriptionManager :=
  { topicSubscribers :=
      r.topicSubscribers.Update topic
        (fun old => (goSetInsert (old.getD []) subscriberID, true))
    subscriberTopics :=
      r.subscriberTopics.Update subscriberID
        (fun old => (goSetInsert (old.getD []) topic, true)) }

/-- Model of `SubscriptionManager.RemoveSubscription`: each side removes the
entry from its bucket and drops the outer key when the bucket empties; an
absent bucket (Go `nil`) is dropped unchanged. -/
def SubscriptionManager.RemoveSubscription (r : SubscriptionManager)
    (subscriberID : String) (topic : Topic) : SubscriptionManager :=
  { topicSubscribers :=
      r.topicSubscribers.Update topic (fun old =>
        match old with
        | none => ([], false)
        | some bucket =>
          let bucket := goSetDelete bucket subscriberID
          if bucket.length = 0 then ([], false) else (bucket, true))
    subscriberTopics :=
      r.subscriberTopics.Update subscriberID (fun old =>
        match old with
        | none => ([], false)
        | some bucket =>
          let bucket := goSetDelete bucket topic
          if bucket.length = 0 then ([], false) else (bucket, true)) }

/-- Model of `SubscriptionManager.GetTopicSubscribers`: the snapshot slice of
the topic bucket, `nil` (here `[]`) when the topic is absent. -/
def SubscriptionManager.GetTopicSubscribers (r : SubscriptionManager) (topic : Topic) :
    List String :=
  match r.topicSubscribers.Get topic with
  | none => []
  | some subscribers => subscribers

/-- Model of `SubscriptionManager.GetSubscriberTopics`. -/
def SubscriptionManager.GetSubscriberTopics (r : SubscriptionManager) (subscriberID : String) :
    List Topic :=
  match r.subscriberTopics.Get subscriberID with
  | none => []
  | some topics => topics

/-- Model of `SubscriptionManager.RemoveSubscriber`: snapshots the topics of
the subscriber and removes each subscription in turn. -/
def SubscriptionManager.RemoveSubscriber (r : SubscriptionManager)
    (subscriberID : String) : SubscriptionManager :=
  let topics := r.GetSubscriberTopics subscriberID
  topics.foldl (fun acc topic => acc.RemoveSubscription subscriberID topic) r

/-- Model of the function type `MessageHandler`. Handler function values are
only ever invoked or compared against nil by the embedded code, so they are
modelled as optional opaque identifiers, `none` standing for a nil handler. -/
abbrev MessageHandler := Option Nat

/-- Model of the `TopicSubscription` struct. -/
structure TopicSubscription where
  Topic : Topic
  Handler : MessageHandler
  SubscribedAt : GoTime

/-- Model of the `Subscriber` struct; the logger carries no state. -/
structure Subscriber where
  id : String
  subscriptions : SMap Topic TopicSubscription

/-- Model of `NewSubscriber`. -/
def NewSubscriber (id : String) : Subscriber :=
  { id := id, subscriptions := SMap.empty }

/-- Model of the `Subscriber.ID` accessor. -/
def Subscriber.ID (s : Subscriber) : String := s.id

/-- Model of `Subscriber.TopicValidate`: a point-to-point topic must name
this subscriber. The Go code indexes `topicParts[1]` directly; a topic with
the `p2p/` prefix always splits into at least two parts, so the default of
`getD` is never taken on the p2p branch. -/
def Subscriber.TopicValidate (s : Subscriber) (topic : Topic) : Except String Unit :=
  let topicParts := goSplit topic '/'
  if Topic.IsP2P topic then
    if topicParts.getD 1 "" ≠ s.id then .error "p2p topic id does not match"
    else .ok ()
  else .ok ()

/-- Loop body of `Subscriber.Subscribe`: validate each entry in turn,
stopping at the first invalid topic, storing a subscription record for each
validated one. The Go map iteration order is represented by the list
order. -/
def subscribeLoop (now : GoTime) :
    Subscriber → List (Topic × MessageHandler) → Subscriber × Except String Unit
  | s, [] => (s, .ok ())
  | s, (topic, handler) :: rest =>
    match s.TopicValidate topic with
    | .error e => (s, .error e)
    | .ok _ =>
      let subscription : TopicSubscription :=
        { Topic := topic, Handler := handler, SubscribedAt := now }
      subscribeLoop now
        { s with subscriptions := s.subscriptions.Set topic subscription } rest

/-- Model of `Subscriber.Subscribe`. -/
def Subscriber.Subscribe (s : Subscriber) (topicMap : List (Topic × MessageHandler))
    (now : GoTime) : Subscriber × Except String Unit :=
  if topicMap.length = 0 then (s, .ok ())
  else subscribeLoop now s topicMap

/-- Model of `Subscriber.HandleMessage`: a handler-task spawn is recorded as
an invocation pair of the subscriber id and the received message; an absent
subscription or a nil handler spawns nothing. -/
def Subscriber.HandleMessage (s : Subscriber) (message : Message) :
    Option (String × Message) :=
  match s.subscriptions.Get message.Topic with
  | none => none
  | some sub => if sub.Handler.isSome then some (s.id, message) else none

/-- Model of the `BrokerConfig` struct. -/
structure BrokerConfig where
  MaxConcurrency : Nat
  CleanupInterval : GoDuration
  QueueSize : Nat

/-- Model of `DefaultBrokerConfig` (1 minute in nanoseconds). -/
def DefaultBrokerConfig : BrokerConfig :=
  { MaxConcurrency := 100, CleanupInterval := 60000000000, QueueSize := 1000 }

/-- Model of the `time.AfterFunc` timers held in the delivery-timer map:
the one-shot timer together with the message its callback captured;
`fired` records whether the runtime has already triggered the callback. -/
structure GoTimer where
  msg : Message
  fired : Bool
deriving DecidableEq

/-- Model of `time.Timer.Stop`: reports whether the call prevented the
callback from running (false when the timer already fired). -/
def GoTimer.Stop (t : GoTimer) : Bool := !t.fired

/-- Model of the `MessageBroker` struct. The buffered channel becomes the
queue `pendingMessages` with a closed flag, the cancellation context the
flag `ctxDone`, and the atomic int32 running flag the natural `running`
(the source writes only 0 and 1 through compare-and-swap). The wait group
and logger carry no state. -/
structure MessageBroker where
  config : BrokerConfig
  subscriptionManager : SubscriptionManager
  subscribers : SMap String Subscriber
  messages : SMap String Message
  pendingMessages : List Message
  pendingClosed : Bool
  deliveryTimers : SMap String GoTimer
  ctxDone : Bool
  msgCounter : Int
  running : Nat

/-- Model of `NewMessageBroker`: a nil config resolves to the defaults. -/
def NewMessageBroker (config : Option BrokerConfig) : MessageBroker :=
  { config := config.getD DefaultBrokerConfig
    subscriptionManager := NewSubscriptionManager
    subscribers := SMap.empty
    messages := SMap.empty
    pendingMessages := []
    pendingClosed := false
    deliveryTimers := SMap.empty
    ctxDone := false
    msgCounter := 0
    running := 0 }

/-- Model of `MessageBroker.Start`: the compare-and-swap from 0 to 1 on the
running flag; the spawned worker goroutines carry no state here. -/
def MessageBroker.Start (b : MessageBroker) : MessageBroker × Except String Unit :=
  if b.running = 0 then ({ b with running := 1 }, .ok ())
  else (b, .error "broker is already running")

/-- Model of `MessageBroker.Stop`: the compare-and-swap from 1 to 0, the
context cancellation, the channel close, the stop of every pending delivery
timer and the reset of the timer map to a fresh one; the wait-group join
carries no state. -/
def MessageBroker.Stop (b : MessageBroker) : MessageBroker × Except String Unit :=
  if b.running = 1 then
    ({ b with
        running := 0
        ctxDone := true
        pendingClosed := true
        deliveryTimers := SMap.empty }, .ok ())
  else (b, .error "broker is not running")

/-- Model of `MessageBroker.RegisterSubscriber`. -/
def MessageBroker.RegisterSubscriber (b : MessageBroker) (subscriber : Subscriber) :
    MessageBroker × Except String Unit :=
  match b.subscribers.Get subscriber.ID with
  | some _ => (b, .error ("subscriber " ++ subscriber.ID ++ " already exists"))
  | none => ({ b with subscribers := b.subscribers.Set subscriber.ID subscriber }, .ok ())

/-- Model of `MessageBroker.Publish`. The parameter `selectsDone` resolves
the nondeterministic select between the channel send and the cancellation
token; the token branch is only enabled once the token has fired. -/
def MessageBroker.Publish (b : MessageBroker) (msg : Message) (selectsDone : Bool) :
    MessageBroker × Except String Unit :=
  if b.running = 0 then (b, .error "broker is not running")
  else
    let b := { b with messages := b.messages.Set msg.ID msg }
    if b.ctxDone && selectsDone then
      (b, .error "broker is shutting down")
    else
      ({ b with pendingMessages := b.pendingMessages ++ [msg] }, .ok ())

/-- Model of `MessageBroker.Subscribe`: every topic of the map is added to
the registry first, then the subscriber validates and stores its own
records. -/
def MessageBroker.Subscribe (b : MessageBroker) (subscriberID : String)
    (topicMap : List (Topic × MessageHandler)) (now : GoTime) :
    MessageBroker × Except String Unit :=
  match b.subscribers.Get subscriberID with
  | none => (b, .error ("subscriber " ++ subscriberID ++ " not found"))
  | some subscriber =>
    let manager := topicMap.foldl
      (fun acc p => acc.AddSubscription subscriberID p.1) b.subscriptionManager
    let result := subscriber.Subscribe topicMap now
    ({ b with
        subscriptionManager := manager
        subscribers := b.subscribers.Set subscriberID result.1 }, result.2)

/-- Model of `MessageBroker.CancelDelayedMessage`. -/
def MessageBroker.CancelDelayedMessage (b : MessageBroker) (msgID : String) :
    MessageBroker × Bool :=
  match b.deliveryTimers.Get msgID with
  | none => (b, false)
  | some timer =>
    let stopped := timer.Stop
    ({ b with deliveryTimers := b.deliveryTimers.Delete msgID }, stopped)

/-- Model of `MessageBroker.sendToSubscriber`. A topic with no subscribers
drops the message from the store; otherwise the per-subscriber handler-task
spawns are returned as invocation records (the Go per-subscriber shallow
copy is the same message value in the pure embedding). -/
def MessageBroker.sendToSubscriber (b : MessageBroker) (msg : Message) :
    MessageBroker × List (String × Message) :=
  let subscriberIDs := b.subscriptionManager.GetTopicSubscribers msg.Topic
  if subscriberIDs.length = 0 then
    ({ b with messages := b.messages.Delete msg.ID }, [])
  else
    let targetSubscribers := subscriberIDs.filterMap (fun cid => b.subscribers.Get cid)
    (b, targetSubscribers.filterMap (fun subscriber => subscriber.HandleMessage msg))

/-- Model of `MessageBroker.distributeMessage`: expiry check, then either
delayed-delivery timer arming or immediate fan-out. -/
def MessageBroker.distributeMessage (b : MessageBroker) (msg : Message) (now : GoTime) :
    MessageBroker × List (String × Message) :=
  if msg.IsExpired now then
    ({ b with messages := b.messages.Delete msg.ID }, [])
  else if msg.Delay > 0 then
    ({ b with deliveryTimers :=
        b.deliveryTimers.Set msg.ID { msg := msg, fired := false } }, [])
  else
    b.sendToSubscriber msg

/-- Scheduler-visible events of one broker: API calls, a dispatcher worker
draining the queue, and the runtime triggering a delivery timer. -/
inductive BrokerEvent where
  | startCall
  | stopCall
  | publishCall (msg : Message) (selectsDone : Bool)
  | dispatchNext (now : GoTime)
  | timerFire (msgID : String)
  | cancelCall (msgID : String)

/-- One step of the broker: the next state together with the handler
invocations the step spawns. A `dispatchNext` is a worker receiving from
the queue, returning at once when the context is cancelled; a `timerFire`
is the `time.AfterFunc` callback of a still-armed timer, which removes its
map entry and fans out. -/
def MessageBroker.step (b : MessageBroker) :
    BrokerEvent → MessageBroker × List (String × Message)
  | .startCall => (b.Start.1, [])
  | .stopCall => (b.Stop.1, [])
  | .publishCall msg selectsDone => ((b.Publish msg selectsDone).1, [])
  | .dispatchNext now =>
    match b.pendingMessages with
    | [] => (b, [])
    | msg :: rest =>
      let b1 := { b with pendingMessages := rest }
      if b1.ctxDone then (b1, [])
      else b1.distributeMessage msg now
  | .timerFire msgID =>
    match b.deliveryTimers.Get msgID with
    | none => (b, [])
    | some timer =>
      if timer.fired then (b, [])
      else
        let b1 := { b with deliveryTimers := b.deliveryTimers.Delete timer.msg.ID }
        b1.sendToSubscriber timer.msg
  | .cancelCall msgID => ((b.CancelDelayedMessage msgID).1, [])

/-- A sequence of broker steps, accumulating all spawned invocations. -/
def MessageBroker.run (b : MessageBroker) :
    List BrokerEvent → MessageBroker × List (String × Message)
  | [] => (b, [])
  | e :: es =>
    let r1 := b.step e
    let r2 := r1.1.run es
    (r2.1, r1.2 ++ r2.2)

/-- Call alphabet of the subscription registry, for trace properties over
sequences of registry operations. -/
inductive RegistryOp where
  | add (subscriberID : String) (topic : Topic)
  | remove (subscriberID : String) (topic : Topic)
  | removeSubscriber (subscriberID : String)

/-- One registry call. -/
def SubscriptionManager.applyOp (r : SubscriptionManager) : RegistryOp → SubscriptionManager
  | .add subscriberID topic => r.AddSubscription subscriberID topic
  | .remove subscriberID topic => r.RemoveSubscription subscriberID topic
  | .removeSubscriber subscriberID => r.RemoveSubscriber subscriberID

/-- A sequence of registry calls. -/
def SubscriptionManager.applyOps (r : SubscriptionManager) (ops : List RegistryOp) :
    SubscriptionManager :=
  ops.foldl SubscriptionManager.applyOp r

/-- Membership in a Go keyed set after insertion. -/
theorem goSetInsert_mem (s : List String) (a x : String) :
    x ∈ goSetInsert s a ↔ x = a ∨ x ∈ s := by
  unfold goSetInsert
  by_cases h : a ∈ s
  · simp only [if_pos h]
    constructor
    · exact fun hx => Or.inr hx
    · rintro (rfl | hx)
      · exact h
      · exact hx
  · simp [if_neg h, or_comm]

/-- Membership in a Go keyed set after deletion. -/
theorem goSetDelete_mem (s : List String) (a x : String) :
    x ∈ goSetDelete s a ↔ x ∈ s ∧ x ≠ a := by
  simp [goSetDelete, List.mem_filter]

/-- The topic-subscribers snapshot is the bucket with default `[]`. -/
theorem getTopicSubscribers_eq (r : SubscriptionManager) (t : Topic) :
    r.GetTopicSubscribers t = (r.topicSubscribers t).getD [] := by
  unfold SubscriptionManager.GetTopicSubscribers SMap.Get
  cases r.topicSubscribers t <;> rfl

/-- The subscriber-topics snapshot is the bucket with default `[]`. -/
theorem getSubscriberTopics_eq (r : SubscriptionManager) (s : String) :
    r.GetSubscriberTopics s = (r.subscriberTopics s).getD [] := by
  unfold SubscriptionManager.GetSubscriberTopics SMap.Get
  cases r.subscriberTopics s <;> rfl

/-- Effect of AddSubscription on the topic-subscribers view. -/
theorem mem_getTopicSubscribers_add (r : SubscriptionManager) (s0 : String) (t0 t : Topic)
    (s : String) :
    s ∈ (r.AddSubscription s0 t0).GetTopicSubscribers t ↔
      (t = t0 ∧ s = s0) ∨ s ∈ r.GetTopicSubscribers t := by
  simp only [getTopicSubscribers_eq, SubscriptionManager.AddSubscription, SMap.Update]
  by_cases h : t = t0
  · subst h
    simp [goSetInsert_mem]
  · simp [h]

/-- Effect of AddSubscription on the subscriber-topics view. -/
theorem mem_getSubscriberTopics_add (r : SubscriptionManager) (s0 : String) (t0 t : Topic)
    (s : String) :
    t ∈ (r.AddSubscription s0 t0).GetSubscriberTopics s ↔
      (s = s0 ∧ t = t0) ∨ t ∈ r.GetSubscriberTopics s := by
  simp only [getSubscriberTopics_eq, SubscriptionManager.AddSubscription, SMap.Update]
  by_cases h : s = s0
  · subst h
    simp [goSetInsert_mem]
  · simp [h]

/-- Effect of RemoveSubscription on the topic-subscribers view. -/
theorem mem_getTopicSubscribers_remove (r : SubscriptionManager) (s0 : String) (t0 t : Topic)
    (s : String) :
    s ∈ (r.RemoveSubscription s0 t0).GetTopicSubscribers t ↔
      s ∈ r.GetTopicSubscribers t ∧ ¬(t = t0 ∧ s = s0) := by
  simp only [getTopicSubscribers_eq, SubscriptionManager.RemoveSubscription, SMap.Update]
  by_cases h : t = t0
  · subst h
    simp only [if_pos rfl]
    cases hb : r.topicSubscribers t with
    | none => simp
    | some bucket =>
        by_cases hl : (goSetDelete bucket s0).length = 0
        · have hnil : goSetDelete bucket s0 = [] := List.length_eq_zero.mp hl
          have hall : ∀ x, x ∈ bucket → x = s0 := by
            intro x hx
            by_contra hne
            have hmem : x ∈ goSetDelete bucket s0 := (goSetDelete_mem bucket s0 x).mpr ⟨hx, hne⟩
            rw [hnil] at hmem
            exact List.not_mem_nil x hmem
          simp only [hl]
          constructor
          · intro hmem
            simp at hmem
          · rintro ⟨hs, hne⟩
            exact absurd ⟨trivial, hall s hs⟩ hne
        · simp [hl, goSetDelete_mem]
  · simp [h]

/-- Effect of RemoveSubscription on the subscriber-topics view. -/
theorem mem_getSubscriberTopics_remove (r : SubscriptionManager) (s0 : String) (t0 t : Topic)
    (s : String) :
    t ∈ (r.RemoveSubscription s0 t0).GetSubscriberTopics s ↔
      t ∈ r.GetSubscriberTopics s ∧ ¬(s = s0 ∧ t = t0) := by
  simp only [getSubscriberTopics_eq, SubscriptionManager.RemoveSubscription, SMap.Update]
  by_cases h : s = s0
  · subst h
    simp only [if_pos rfl]
    cases hb : r.subscriberTopics s with
    | none => simp
    | some bucket =>
        by_cases hl : (goSetDelete bucket t0).length = 0
        · have hnil : goSetDelete bucket t0 = [] := List.length_eq_zero.mp hl
          have hall : ∀ x, x ∈ bucket → x = t0 := by
            intro x hx
            by_contra hne
            have hmem : x ∈ goSetDelete bucket t0 := (goSetDelete_mem bucket t0 x).mpr ⟨hx, hne⟩
            rw [hnil] at hmem
            exact List.not_mem_nil x hmem
          simp only [hl]
          constructor
          · intro hmem
            simp at hmem
          · rintro ⟨ht, hne⟩
            exact absurd ⟨trivial, hall t ht⟩ hne
        · simp [hl, goSetDelete_mem]
  · simp [h]

/-- Cross-consistency of the two inverted indices of the registry. -/
def SubscriptionManager.Consistent (r : SubscriptionManager) : Prop :=
  ∀ (t : Topic) (s : String), s ∈ r.GetTopicSubscribers t ↔ t ∈ r.GetSubscriberTopics s

/-- The fresh registry is consistent. -/
theorem consistent_new : NewSubscriptionManager.Consistent := by
  intro t s
  simp [NewSubscriptionManager, getTopicSubscribers_eq, getSubscriberTopics_eq, SMap.empty]

/-- AddSubscription preserves consistency. -/
theorem consistent_add (r : SubscriptionManager) (h : r.Consistent) (s0 : String) (t0 : Topic) :
    (r.AddSubscription s0 t0).Consistent := by
  intro t s
  rw [mem_getTopicSubscribers_add, mem_getSubscriberTopics_add, h t s]
  tauto

/-- RemoveSubscription preserves consistency. -/
theorem consistent_remove (r : SubscriptionManager) (h : r.Consistent) (s0 : String) (t0 : Topic) :
    (r.RemoveSubscription s0 t0).Consistent := by
  intro t s
  rw [mem_getTopicSubscribers_remove, mem_getSubscriberTopics_remove, h t s]
  tauto

/-- Folding RemoveSubscription over any topic list preserves consistency. -/
theorem consistent_foldl_remove (s0 : String) :
    ∀ (topics : List Topic) (r : SubscriptionManager), r.Consistent →
      (topics.foldl (fun acc topic => acc.RemoveSubscription s0 topic) r).Consistent
  | [], _, h => h
  | t :: ts, r, h => consistent_foldl_remove s0 ts _ (consistent_remove r h s0 t)

/-- RemoveSubscriber preserves consistency. -/
theorem consistent_removeSubscriber (r : SubscriptionManager) (h : r.Consistent) (s0 : String) :
    (r.RemoveSubscriber s0).Consistent := by
  unfold SubscriptionManager.RemoveSubscriber
  exact consistent_foldl_remove s0 _ r h

/-- Any sequence of registry calls preserves consistency. -/
theorem consistent_applyOps : ∀ (ops : List RegistryOp) (r : SubscriptionManager),
    r.Consistent → (r.applyOps ops).Consistent
  | [], _, h => h
  | op :: ops, r, h => by
    have h1 : (r.applyOp op).Consistent := by
      cases op with
      | add a b => exact consistent_add r h a b
      | remove a b => exact consistent_remove r h a b
      | removeSubscriber a => exact consistent_removeSubscriber r h a
    exact consistent_applyOps ops _ h1

/-- C1: after any sequence of AddSubscription, RemoveSubscription and
RemoveSubscriber calls on the fresh registry, for every topic t and
subscriber id s, s is a member of GetTopicSubscribers t exactly when t is
a member of GetSubscriberTopics s. -/
theorem c1_registry_inverted_index (ops : List RegistryOp) (t : Topic) (s : String) :
    s ∈ (NewSubscriptionManager.applyOps ops).GetTopicSubscribers t ↔
      t ∈ (NewSubscriptionManager.applyOps ops).GetSubscriberTopics s :=
  consistent_applyOps ops NewSubscriptionManager consistent_new t s

/-- C2: Publish returns the not-running error exactly when the running flag
is 0; otherwise the message is stored under its id and the call either
returns the shutting-down error when the cancellation token fires before
the enqueue completes, or enqueues the message onto the backlog and
succeeds. -/
theorem c2_publish_semantics (b : MessageBroker) (msg : Message) (selectsDone : Bool) :
    ((b.Publish msg selectsDone).2 = .error "broker is not running" ↔ b.running = 0) ∧
    (b.running ≠ 0 →
      (b.Publish msg selectsDone).1.messages.Get msg.ID = some msg) ∧
    (b.running ≠ 0 → (b.ctxDone && selectsDone) = true →
      (b.Publish msg selectsDone).2 = .error "broker is shutting down") ∧
    (b.running ≠ 0 → (b.ctxDone && selectsDone) = false →
      (b.Publish msg selectsDone).2 = .ok () ∧
      (b.Publish msg selectsDone).1.pendingMessages = b.pendingMessages ++ [msg]) := by
  unfold MessageBroker.Publish
  by_cases h : b.running = 0
  · simp [h]
  · by_cases hc : (b.ctxDone && selectsDone) = true
    · simp [h, hc, SMap.Get, SMap.Set]
    · simp [h, hc, SMap.Get, SMap.Set]

/-- Witness for C2 at concrete inputs: a running broker accepts a publish,
and a running broker whose token has fired rejects with shutting down. -/
theorem c2_publish_semantics_witness :
    (({ NewMessageBroker none with running := 1 } : MessageBroker).Publish
        (NewMessage "t" [1] 0) false).2 = .ok () ∧
    (({ NewMessageBroker none with running := 1, ctxDone := true } : MessageBroker).Publish
        (NewMessage "t" [1] 0) true).2 = .error "broker is shutting down" := by
  constructor
  · exact ((c2_publish_semantics { NewMessageBroker none with running := 1 }
      (NewMessage "t" [1] 0) false).2.2.2 (by decide) (by rfl)).1
  · exact (c2_publish_semantics { NewMessageBroker none with running := 1, ctxDone := true }
      (NewMessage "t" [1] 0) true).2.2.1 (by decide) (by rfl)

/-- C9: when Publish returns the shutting-down error the message has
already been inserted into the store and remains there; only the
not-running error leaves the broker unchanged. -/
theorem c9_publish_shutdown_not_atomic (b : MessageBroker) (msg : Message)
    (selectsDone : Bool) :
    ((b.Publish msg selectsDone).2 = .error "broker is shutting down" →
      (b.Publish msg selectsDone).1.messages.Get msg.ID = some msg) ∧
    ((b.Publish msg selectsDone).2 = .error "broker is not running" →
      (b.Publish msg selectsDone).1 = b) := by
  unfold MessageBroker.Publish
  by_cases h : b.running = 0
  · simp [h]
  · by_cases hc : (b.ctxDone && selectsDone) = true
    · simp [h, hc, SMap.Get, SMap.Set]
    · simp [h, hc]

/-- Witness for C9: at a running broker with a fired token the shutdown
error path has stored the message; at a stopped broker the not-running
path leaves the state unchanged. -/
theorem c9_publish_shutdown_not_atomic_witness :
    (({ NewMessageBroker none with running := 1, ctxDone := true } : MessageBroker).Publish
        (NewMessage "t" [1] 0) true).1.messages.Get (NewMessage "t" [1] 0).ID =
      some (NewMessage "t" [1] 0) ∧
    ((NewMessageBroker none).Publish (NewMessage "t" [1] 0) false).1 =
      NewMessageBroker none := by
  constructor
  · exact (c9_publish_shutdown_not_atomic
      { NewMessageBroker none with running := 1, ctxDone := true }
      (NewMessage "t" [1] 0) true).1 (by rfl)
  · exact (c9_publish_shutdown_not_atomic (NewMessageBroker none)
      (NewMessage "t" [1] 0) false).2 (by rfl)

/-- Start and stop calls, for lifecycle traces. -/
inductive LifecycleCall where
  | start
  | stop
deriving DecidableEq

/-- Run a sequence of Start and Stop calls, collecting every returned
result. -/
def MessageBroker.runLifecycle (b : MessageBroker) :
    List LifecycleCall → MessageBroker × List (Except String Unit)
  | [] => (b, [])
  | c :: cs =>
    let r := match c with
      | .start => b.Start
      | .stop => b.Stop
    let rest := r.1.runLifecycle cs
    (rest.1, r.2 :: rest.2)

/-- Whether a lifecycle result is a success. -/
def isOk : Except String Unit → Bool
  | .ok _ => true
  | .error _ => false

/-- Number of successful calls of the given kind in a lifecycle trace. -/
def countOk : List LifecycleCall → List (Except String Unit) → LifecycleCall → Nat
  | c :: cs, r :: rs, x => (if c = x ∧ isOk r = true then 1 else 0) + countOk cs rs x
  | _, _, _ => 0

/-- Lifecycle bookkeeping: from a flag that is 0 or 1, successful starts
and stops balance against the flag change, the flag stays 0 or 1, and
every result is a success, the already-running error on a start, or the
not-running error on a stop. -/
theorem runLifecycle_spec : ∀ (calls : List LifecycleCall) (b : MessageBroker),
    b.running ≤ 1 →
    countOk calls (b.runLifecycle calls).2 .start + b.running =
      countOk calls (b.runLifecycle calls).2 .stop + (b.runLifecycle calls).1.running ∧
    (b.runLifecycle calls).1.running ≤ 1 ∧
    (∀ p ∈ calls.zip (b.runLifecycle calls).2,
      p.2 = .ok () ∨ (p.1 = .start ∧ p.2 = .error "broker is already running") ∨
        (p.1 = .stop ∧ p.2 = .error "broker is not running"))
  | [], b, h => by
    simp [MessageBroker.runLifecycle, countOk, h]
  | .start :: cs, b, h => by
    by_cases h0 : b.running = 0
    · have hstep : b.Start = ({ b with running := 1 }, .ok ()) := by
        simp [MessageBroker.Start, h0]
      have ih := runLifecycle_spec cs { b with running := 1 } (by simp)
      simp only [MessageBroker.runLifecycle, hstep, countOk, isOk, List.zip_cons_cons,
        List.mem_cons]
      refine ⟨?_, ih.2.1, ?_⟩
      · have h1 := ih.1
        simp only [h0]
        simp only [show ((LifecycleCall.start = .start ∧ true = true)) from ⟨rfl, rfl⟩,
          if_pos] at *
        simp at h1 ⊢
        omega
      · rintro p (rfl | hp)
        · exact Or.inl rfl
        · exact ih.2.2 p hp
    · have h1 : b.running = 1 := by omega
      have hstep : b.Start = (b, .error "broker is already running") := by
        simp [MessageBroker.Start, h0]
      have ih := runLifecycle_spec cs b h
      simp only [MessageBroker.runLifecycle, hstep, countOk, isOk, List.zip_cons_cons,
        List.mem_cons]
      refine ⟨?_, ih.2.1, ?_⟩
      · simpa using ih.1
      · rintro p (rfl | hp)
        · exact Or.inr (Or.inl ⟨rfl, rfl⟩)
        · exact ih.2.2 p hp
  | .stop :: cs, b, h => by
    by_cases h1 : b.running = 1
    · have hstep : b.Stop = ({ b with
          running := 0
          ctxDone := true
          pendingClosed := true
          deliveryTimers := SMap.empty }, .ok ()) := by
        simp [MessageBroker.Stop, h1]
      have ih := runLifecycle_spec cs { b with
          running := 0
          ctxDone := true
          pendingClosed := true
          deliveryTimers := SMap.empty } (by simp)
      simp only [MessageBroker.runLifecycle, hstep, countOk, isOk, List.zip_cons_cons,
        List.mem_cons]
      refine ⟨?_, ih.2.1, ?_⟩
      · have hx := ih.1
        simp only [h1]
        simp at hx ⊢
        omega
      · rintro p (rfl | hp)
        · exact Or.inl rfl
        · exact ih.2.2 p hp
    · have hstep : b.Stop = (b, .error "broker is not running") := by
        simp [MessageBroker.Stop, h1]
      have ih := runLifecycle_spec cs b h
      simp only [MessageBroker.runLifecycle, hstep, countOk, isOk, List.zip_cons_cons,
        List.mem_cons]
      refine ⟨?_, ih.2.1, ?_⟩
      · simpa using ih.1
      · rintro p (rfl | hp)
        · exact Or.inr (Or.inr ⟨rfl, rfl⟩)
        · exact ih.2.2 p hp

/-- C5 counterexample: in the call sequence start, stop, start on a fresh
broker every call succeeds, so start returns success twice, not exactly
once. -/
theorem c5_counterexample :
    countOk [LifecycleCall.start, .stop, .start]
      ((NewMessageBroker none).runLifecycle [.start, .stop, .start]).2 .start ≠ 1 := by
  decide

/-- C5 amended: over any sequence of start and stop calls on a fresh
broker, the number of successful starts equals the number of successful
stops plus the final running flag, which is always 0 or 1 - so successes
strictly alternate beginning with start, and a start succeeds again after
every successful stop; every failed start returns the already-running
error and every failed stop the not-running error. -/
theorem c5_lifecycle_alternation (calls : List LifecycleCall) :
    countOk calls ((NewMessageBroker none).runLifecycle calls).2 .start =
      countOk calls ((NewMessageBroker none).runLifecycle calls).2 .stop +
        ((NewMessageBroker none).runLifecycle calls).1.running ∧
    ((NewMessageBroker none).runLifecycle calls).1.running ≤ 1 ∧
    (∀ p ∈ calls.zip ((NewMessageBroker none).runLifecycle calls).2,
      p.2 = .ok () ∨ (p.1 = .start ∧ p.2 = .error "broker is already running") ∨
        (p.1 = .stop ∧ p.2 = .error "broker is not running")) := by
  have h := runLifecycle_spec calls (NewMessageBroker none) (by simp [NewMessageBroker])
  simpa [NewMessageBroker] using h

/-- C6: at the failing input, two NewMessage calls observing the same
nanosecond timestamp produce equal ids even for distinct topics and
payloads - the id is derived from the timestamp alone. -/
theorem c6_id_collision :
    (NewMessage "t1" [1] 42).ID = (NewMessage "t2" [2] 42).ID := rfl

/-- TopicValidate reads only the subscriber id, so replacing the
subscription table leaves it unchanged. -/
theorem topicValidate_update (s : Subscriber) (x : SMap Topic TopicSubscription) (t : Topic) :
    Subscriber.TopicValidate { s with subscriptions := x } t = s.TopicValidate t := rfl

/-- The subscribe loop succeeds exactly when every listed topic validates. -/
theorem subscribeLoop_ok_iff (now : GoTime) :
    ∀ (l : List (Topic × MessageHandler)) (s : Subscriber),
      (subscribeLoop now s l).2 = .ok () ↔ ∀ p ∈ l, s.TopicValidate p.1 = .ok ()
  | [], s => by simp [subscribeLoop]
  | (topic, handler) :: rest, s => by
    cases hv : s.TopicValidate topic with
    | error e =>
      simp only [subscribeLoop, hv]
      constructor
      · intro h
        cases h
      · intro h
        have hc := h (topic, handler) (List.mem_cons_self _ _)
        rw [hv] at hc
        cases hc
    | ok u =>
      cases u
      simp only [subscribeLoop, hv]
      rw [subscribeLoop_ok_iff now rest _]
      constructor
      · intro h p hp
        rcases List.mem_cons.mp hp with heq | hp2
        · rw [heq]
          exact hv
        · have hc := h p hp2
          rwa [topicValidate_update] at hc
      · intro h p hp
        rw [topicValidate_update]
        exact h p (List.mem_cons_of_mem _ hp)

/-- C8 counterexample: subscriber A subscribing to the empty topic
succeeds, although the claim requires an error for the empty topic. -/
theorem c8_counterexample :
    ((NewSubscriber "A").Subscribe [("", some 0)] 0).2 = .ok () := rfl

/-- C8 amended: a subscriber subscribe returns success exactly when every
topic of the map validates, and a topic fails validation only when it is a
point-to-point topic whose second slash-separated segment differs from the
subscriber id - the empty topic is accepted; in particular subscriber A
subscribing to p2p/A succeeds and to p2p/B fails. -/
theorem c8_subscribe_validation :
    (∀ (s : Subscriber) (topicMap : List (Topic × MessageHandler)) (now : GoTime),
      ((s.Subscribe topicMap now).2 = .ok () ↔
        ∀ p ∈ topicMap, s.TopicValidate p.1 = .ok ())) ∧
    (∀ hdl : MessageHandler,
      ((NewSubscriber "A").Subscribe [("p2p/A", hdl)] 0).2 = .ok () ∧
      ((NewSubscriber "A").Subscribe [("p2p/B", hdl)] 0).2 =
        .error "p2p topic id does not match") := by
  constructor
  · intro s topicMap now
    unfold Subscriber.Subscribe
    by_cases h : topicMap.length = 0
    · have : topicMap = [] := List.length_eq_zero.mp h
      subst this
      simp
    · simp only [h, if_neg, if_false]
      exact subscribeLoop_ok_iff now topicMap s
  · intro hdl
    constructor
    · rfl
    · rfl

/-- Witness for C8 amended at a concrete handler: subscriber A subscribing
to p2p/A succeeds and to p2p/B fails. -/
theorem c8_subscribe_validation_witness :
    ((NewSubscriber "A").Subscribe [("p2p/A", some 0)] 0).2 = .ok () ∧
    ((NewSubscriber "A").Subscribe [("p2p/B", some 0)] 0).2 =
      .error "p2p topic id does not match" :=
  c8_subscribe_validation.2 (some 0)

/-- AddSubscription folded over a topic list preserves both membership
views of the registry. -/
theorem foldl_add_preserve (subscriberID : String) :
    ∀ (l : List (Topic × MessageHandler)) (r : SubscriptionManager) (t : Topic) (x : String),
      (x ∈ r.GetTopicSubscribers t →
        x ∈ (l.foldl (fun acc q => acc.AddSubscription subscriberID q.1)
          r).GetTopicSubscribers t) ∧
      (t ∈ r.GetSubscriberTopics x →
        t ∈ (l.foldl (fun acc q => acc.AddSubscription subscriberID q.1)
          r).GetSubscriberTopics x)
  | [], _, _, _ => ⟨id, id⟩
  | q :: rest, r, t, x => by
    constructor
    · intro h
      exact (foldl_add_preserve subscriberID rest _ t x).1
        ((mem_getTopicSubscribers_add r subscriberID q.1 t x).mpr (Or.inr h))
    · intro h
      exact (foldl_add_preserve subscriberID rest _ t x).2
        ((mem_getSubscriberTopics_add r subscriberID q.1 t x).mpr (Or.inr h))

/-- After folding AddSubscription over a topic map, every listed pair is
present in both registry views. -/
theorem foldl_add_subscribes (subscriberID : String) :
    ∀ (l : List (Topic × MessageHandler)) (r : SubscriptionManager)
      (p : Topic × MessageHandler), p ∈ l →
      subscriberID ∈ (l.foldl (fun acc q => acc.AddSubscription subscriberID q.1)
        r).GetTopicSubscribers p.1 ∧
      p.1 ∈ (l.foldl (fun acc q => acc.AddSubscription subscriberID q.1)
        r).GetSubscriberTopics subscriberID
  | q :: rest, r, p, hp => by
    rcases List.mem_cons.mp hp with heq | hp2
    · subst heq
      constructor
      · exact (foldl_add_preserve subscriberID rest _ p.1 subscriberID).1
          ((mem_getTopicSubscribers_add r subscriberID p.1 p.1 subscriberID).mpr
            (Or.inl ⟨rfl, rfl⟩))
      · exact (foldl_add_preserve subscriberID rest _ p.1 subscriberID).2
          ((mem_getSubscriberTopics_add r subscriberID p.1 p.1 subscriberID).mpr
            (Or.inl ⟨rfl, rfl⟩))
    · exact foldl_add_subscribes subscriberID rest _ p hp2

/-- The subscribe loop never stores an entry for a topic that fails
validation. -/
theorem subscribeLoop_invalid_unchanged (now : GoTime) :
    ∀ (l : List (Topic × MessageHandler)) (s : Subscriber) (t : Topic),
      s.TopicValidate t ≠ .ok () →
      (subscribeLoop now s l).1.subscriptions.Get t = s.subscriptions.Get t
  | [], _, _, _ => rfl
  | (topic, handler) :: rest, s, t, hinv => by
    cases hv : s.TopicValidate topic with
    | error e => simp [subscribeLoop, hv]
    | ok u =>
      cases u
      have hne : t ≠ topic := by
        intro he
        subst he
        exact hinv hv
      simp only [subscribeLoop, hv]
      rw [subscribeLoop_invalid_unchanged now rest _ t
        (by rw [topicValidate_update]; exact hinv)]
      simp [SMap.Get, SMap.Set, hne]

/-- Subscriber Subscribe never stores an entry for an invalid topic. -/
theorem subscribe_invalid_unchanged (s : Subscriber) (l : List (Topic × MessageHandler))
    (now : GoTime) (t : Topic) (hinv : s.TopicValidate t ≠ .ok ()) :
    (s.Subscribe l now).1.subscriptions.Get t = s.subscriptions.Get t := by
  unfold Subscriber.Subscribe
  by_cases h : l.length = 0
  · simp [h]
  · simp only [h, if_neg, if_false]
    exact subscribeLoop_invalid_unchanged now l s t hinv

/-- C10: when the broker Subscribe of a registered subscriber returns a
validation error, the registry already holds every topic of the map in
both inverted views, while the subscriber table gained no entry for any
invalid topic. -/
theorem c10_broker_subscribe_registry_first (b : MessageBroker) (subscriberID : String)
    (topicMap : List (Topic × MessageHandler)) (now : GoTime) (sub : Subscriber) (e : String)
    (hsub : b.subscribers.Get subscriberID = some sub)
    (_herr : (b.Subscribe subscriberID topicMap now).2 = .error e) :
    (∀ p ∈ topicMap,
      subscriberID ∈ (b.Subscribe subscriberID topicMap
        now).1.subscriptionManager.GetTopicSubscribers p.1 ∧
      p.1 ∈ (b.Subscribe subscriberID topicMap
        now).1.subscriptionManager.GetSubscriberTopics subscriberID) ∧
    ((b.Subscribe subscriberID topicMap now).1.subscribers.Get subscriberID =
      some (sub.Subscribe topicMap now).1 ∧
      (∀ p ∈ topicMap, sub.TopicValidate p.1 ≠ .ok () →
        (sub.Subscribe topicMap now).1.subscriptions.Get p.1 =
          sub.subscriptions.Get p.1)) := by
  simp only [MessageBroker.Subscribe, hsub]
  refine ⟨?_, ?_, ?_⟩
  · intro p hp
    exact foldl_add_subscribes subscriberID topicMap b.subscriptionManager p hp
  · simp [SMap.Get, SMap.Set]
  · intro p _ hinv
    exact subscribe_invalid_unchanged sub topicMap now p.1 hinv

/-- Sample subscriber for the C10 witness. -/
def sampleSubscriberA : Subscriber := NewSubscriber "A"

/-- Sample broker with subscriber A registered, for the C10 witness. -/
def sampleBrokerA : MessageBroker :=
  ((NewMessageBroker none).RegisterSubscriber sampleSubscriberA).1

/-- Witness for C10: broker Subscribe of subscriber A on the invalid topic
p2p/B errors, yet the registry holds the pair while the subscriber table
does not. -/
theorem c10_broker_subscribe_registry_first_witness :
    "A" ∈ (sampleBrokerA.Subscribe "A" [("p2p/B", some 0)]
      0).1.subscriptionManager.GetTopicSubscribers "p2p/B" ∧
    (sampleSubscriberA.Subscribe [("p2p/B", some 0)] 0).1.subscriptions.Get "p2p/B" =
      none := by
  have h := c10_broker_subscribe_registry_first sampleBrokerA "A" [("p2p/B", some 0)] 0
    sampleSubscriberA "p2p topic id does not match" (by rfl) (by rfl)
  constructor
  · exact (h.1 ("p2p/B", some 0) (by simp)).1
  · have hu := h.2.2 ("p2p/B", some 0) (by simp) (by intro hc; cases hc)
    simpa [sampleSubscriberA, NewSubscriber, SMap.Get, SMap.empty] using hu

/-- Witness for C5 amended at a concrete trace: on the calls start then
stop, the successful starts balance the successful stops plus the final
flag, and the first result is characterized. -/
theorem c5_lifecycle_alternation_witness :
    (countOk [LifecycleCall.start, LifecycleCall.stop]
        ((NewMessageBroker none).runLifecycle [LifecycleCall.start, LifecycleCall.stop]).2
        LifecycleCall.start =
      countOk [LifecycleCall.start, LifecycleCall.stop]
        ((NewMessageBroker none).runLifecycle [LifecycleCall.start, LifecycleCall.stop]).2
        LifecycleCall.stop +
      ((NewMessageBroker none).runLifecycle
        [LifecycleCall.start, LifecycleCall.stop]).1.running) ∧
    ((LifecycleCall.start, (Except.ok () : Except String Unit)).2 = .ok () ∨
      ((LifecycleCall.start, (Except.ok () : Except String Unit)).1 = .start ∧
        (LifecycleCall.start, (Except.ok () : Except String Unit)).2 =
          .error "broker is already running") ∨
      ((LifecycleCall.start, (Except.ok () : Except String Unit)).1 = .stop ∧
        (LifecycleCall.start, (Except.ok () : Except String Unit)).2 =
          .error "broker is not running")) :=
  ⟨(c5_lifecycle_alternation [LifecycleCall.start, LifecycleCall.stop]).1,
    (c5_lifecycle_alternation [LifecycleCall.start, LifecycleCall.stop]).2.2
      (LifecycleCall.start, Except.ok ()) (List.mem_cons_self _ _)⟩

/-- Delayed message on a topic with no subscribers, for C3. -/
def delayedMsgNoSub : Message := (NewMessage "nobody" [] 0).SetDelay 5

/-- Fresh broker holding only the delayed message in its store, for C3. -/
def brokerWithDelayedMsg : MessageBroker :=
  { NewMessageBroker none with
      messages := (NewMessageBroker none).messages.Set delayedMsgNoSub.ID delayedMsgNoSub }

/-- C3 counterexample: dispatching an unexpired positive-delay message
whose topic has no subscribers arms a delivery timer and keeps the message
in the store, instead of consulting the registry first and dropping it
without a timer as the claim states. -/
theorem c3_counterexample :
    delayedMsgNoSub.IsExpired 0 = false ∧
    brokerWithDelayedMsg.subscriptionManager.GetTopicSubscribers delayedMsgNoSub.Topic = [] ∧
    (brokerWithDelayedMsg.distributeMessage delayedMsgNoSub 0).1.deliveryTimers.Get
      delayedMsgNoSub.ID = some { msg := delayedMsgNoSub, fired := false } ∧
    (brokerWithDelayedMsg.distributeMessage delayedMsgNoSub 0).1.messages.Get
      delayedMsgNoSub.ID = some delayedMsgNoSub := by
  exact ⟨rfl, rfl, rfl, rfl⟩

/-- Fan-out on a topic with no subscribers drops the message. -/
theorem sendToSubscriber_nosubs (b : MessageBroker) (msg : Message)
    (h : b.subscriptionManager.GetTopicSubscribers msg.Topic = []) :
    b.sendToSubscriber msg = ({ b with messages := b.messages.Delete msg.ID }, []) := by
  simp [MessageBroker.sendToSubscriber, h]

/-- C3 amended: the dispatcher checks the delay before the registry. An
unexpired zero-delay message with no subscribers is removed from the store
and dropped with no timer armed and no handler spawned; an unexpired
positive-delay message gets a timer armed with the store untouched,
regardless of subscribers, and the registry is consulted only when that
timer fires. -/
theorem c3_dispatch_timer_before_registry (b : MessageBroker) (msg : Message) (now : GoTime)
    (hexp : msg.IsExpired now = false) :
    (msg.Delay ≤ 0 → b.subscriptionManager.GetTopicSubscribers msg.Topic = [] →
      (b.distributeMessage msg now).1.messages.Get msg.ID = none ∧
      (b.distributeMessage msg now).2 = [] ∧
      (b.distributeMessage msg now).1.deliveryTimers = b.deliveryTimers) ∧
    (0 < msg.Delay →
      (b.distributeMessage msg now).1.deliveryTimers.Get msg.ID =
        some { msg := msg, fired := false } ∧
      (b.distributeMessage msg now).1.messages = b.messages ∧
      (b.distributeMessage msg now).2 = []) := by
  have hexp2 : ¬ (msg.IsExpired now = true) := by
    rw [hexp]
    exact Bool.false_ne_true
  unfold MessageBroker.distributeMessage
  constructor
  · intro hd hsub
    have hdn : ¬ (msg.Delay > 0) := not_lt.mpr hd
    rw [if_neg hexp2, if_neg hdn, sendToSubscriber_nosubs b msg hsub]
    refine ⟨?_, rfl, rfl⟩
    show (b.messages.Delete msg.ID).Get msg.ID = none
    exact SMap.Get_Delete_self b.messages msg.ID
  · intro hd
    rw [if_neg hexp2, if_pos hd]
    refine ⟨?_, rfl, rfl⟩
    show (b.deliveryTimers.Set msg.ID { msg := msg, fired := false }).Get msg.ID =
      some { msg := msg, fired := false }
    exact SMap.Get_Set_self b.deliveryTimers msg.ID { msg := msg, fired := false }

/-- Zero-delay message on a topic with no subscribers, for the C3
witness. -/
def zeroDelayMsgNoSub : Message := NewMessage "nobody" [] 0

/-- Fresh broker holding only the zero-delay message, for the C3
witness. -/
def brokerWithZeroDelayMsg : MessageBroker :=
  { NewMessageBroker none with
      messages := (NewMessageBroker none).messages.Set zeroDelayMsgNoSub.ID zeroDelayMsgNoSub }

/-- Witness for C3 amended at concrete inputs: the zero-delay no-subscriber
message is dropped from the store, the delayed one gets a timer. -/
theorem c3_dispatch_timer_before_registry_witness :
    (brokerWithZeroDelayMsg.distributeMessage zeroDelayMsgNoSub 0).1.messages.Get
      zeroDelayMsgNoSub.ID = none ∧
    (brokerWithDelayedMsg.distributeMessage delayedMsgNoSub 0).1.deliveryTimers.Get
      delayedMsgNoSub.ID = some { msg := delayedMsgNoSub, fired := false } := by
  constructor
  · exact ((c3_dispatch_timer_before_registry brokerWithZeroDelayMsg zeroDelayMsgNoSub 0
      (by rfl)).1 (by decide) (by rfl)).1
  · exact ((c3_dispatch_timer_before_registry brokerWithDelayedMsg delayedMsgNoSub 0
      (by rfl)).2 (by decide)).1

/-- No carrier of the given message id is pending in the broker: no armed
timer holds a message with that id and no queued message carries it. -/
def MessageBroker.NoPendingFor (b : MessageBroker) (msgID : String) : Prop :=
  (∀ (k : String) (t : GoTimer), b.deliveryTimers.Get k = some t → t.msg.ID ≠ msgID) ∧
  (∀ m ∈ b.pendingMessages, m.ID ≠ msgID)

/-- Events that do not publish a message with the given id. -/
def eventAvoids (msgID : String) : BrokerEvent → Prop
  | .publishCall msg _ => msg.ID ≠ msgID
  | _ => True

/-- A handler invocation spawned by HandleMessage carries the handled
message. -/
theorem handleMessage_snd (s : Subscriber) (m : Message) (inv : String × Message)
    (h : s.HandleMessage m = some inv) : inv.2 = m := by
  unfold Subscriber.HandleMessage at h
  cases hs : s.subscriptions.Get m.Topic with
  | none =>
    rw [hs] at h
    cases h
  | some sub =>
    rw [hs] at h
    change (if sub.Handler.isSome = true then some (s.id, m) else none) = some inv at h
    by_cases hh : sub.Handler.isSome = true
    · rw [if_pos hh] at h
      cases h
      rfl
    · rw [if_neg hh] at h
      cases h

/-- Fan-out leaves the timer map and the queue unchanged and every spawned
invocation carries the fanned-out message. -/
theorem sendToSubscriber_parts (b : MessageBroker) (msg : Message) :
    (b.sendToSubscriber msg).1.deliveryTimers = b.deliveryTimers ∧
    (b.sendToSubscriber msg).1.pendingMessages = b.pendingMessages ∧
    ∀ inv ∈ (b.sendToSubscriber msg).2, inv.2 = msg := by
  by_cases h : (b.subscriptionManager.GetTopicSubscribers msg.Topic).length = 0
  · have hstep : b.sendToSubscriber msg =
        ({ b with messages := b.messages.Delete msg.ID }, []) := by
      simp [MessageBroker.sendToSubscriber, h]
    rw [hstep]
    exact ⟨rfl, rfl, fun inv hinv => absurd hinv (List.not_mem_nil inv)⟩
  · have hstep : b.sendToSubscriber msg =
        (b, ((b.subscriptionManager.GetTopicSubscribers msg.Topic).filterMap
          (fun cid => b.subscribers.Get cid)).filterMap
          (fun subscriber => subscriber.HandleMessage msg)) := by
      simp [MessageBroker.sendToSubscriber, h]
    rw [hstep]
    refine ⟨rfl, rfl, ?_⟩
    intro inv hinv
    simp only [List.mem_filterMap] at hinv
    obtain ⟨sub, _, hs⟩ := hinv
    exact handleMessage_snd sub msg inv hs

/-- Dispatching a message that does not carry the watched id preserves the
no-pending property and spawns no invocation for it. -/
theorem distribute_noPendingFor (b : MessageBroker) (msg : Message) (now : GoTime)
    (msgID : String)
    (ht : ∀ (k : String) (t : GoTimer), b.deliveryTimers.Get k = some t → t.msg.ID ≠ msgID)
    (hq : ∀ m ∈ b.pendingMessages, m.ID ≠ msgID) (hm : msg.ID ≠ msgID) :
    (b.distributeMessage msg now).1.NoPendingFor msgID ∧
    ∀ inv ∈ (b.distributeMessage msg now).2, inv.2.ID ≠ msgID := by
  unfold MessageBroker.distributeMessage
  by_cases hexp : msg.IsExpired now = true
  · rw [if_pos hexp]
    exact ⟨⟨ht, hq⟩, fun inv hinv => absurd hinv (List.not_mem_nil inv)⟩
  · rw [if_neg hexp]
    by_cases hd : msg.Delay > 0
    · rw [if_pos hd]
      refine ⟨⟨?_, hq⟩, fun inv hinv => absurd hinv (List.not_mem_nil inv)⟩
      intro k t hg
      have hg2 : (b.deliveryTimers.Set msg.ID { msg := msg, fired := false }).Get k =
        some t := hg
      by_cases hk : k = msg.ID
      · subst hk
        rw [SMap.Get_Set_self] at hg2
        cases hg2
        exact hm
      · rw [SMap.Get_Set_ne _ _ _ _ hk] at hg2
        exact ht k t hg2
    · rw [if_neg hd]
      have hp := sendToSubscriber_parts b msg
      refine ⟨⟨?_, ?_⟩, ?_⟩
      · intro k t hg
        rw [hp.1] at hg
        exact ht k t hg
      · intro m hmem
        rw [hp.2.1] at hmem
        exact hq m hmem
      · intro inv hinv
        rw [hp.2.2 inv hinv]
        exact hm

/-- One broker step from a state with nothing pending for the id, on an
event that does not republish the id, spawns no invocation for it and
preserves the no-pending property. -/
theorem step_noPendingFor (b : MessageBroker) (msgID : String) (e : BrokerEvent)
    (h : b.NoPendingFor msgID) (he : eventAvoids msgID e) :
    (b.step e).1.NoPendingFor msgID ∧ ∀ inv ∈ (b.step e).2, inv.2.ID ≠ msgID := by
  obtain ⟨ht, hq⟩ := h
  cases e with
  | startCall =>
    refine ⟨?_, fun inv hinv => absurd hinv (List.not_mem_nil inv)⟩
    show b.Start.1.NoPendingFor msgID
    unfold MessageBroker.Start
    by_cases h0 : b.running = 0
    · rw [if_pos h0]
      exact ⟨ht, hq⟩
    · rw [if_neg h0]
      exact ⟨ht, hq⟩
  | stopCall =>
    refine ⟨?_, fun inv hinv => absurd hinv (List.not_mem_nil inv)⟩
    show b.Stop.1.NoPendingFor msgID
    unfold MessageBroker.Stop
    by_cases h1 : b.running = 1
    · rw [if_pos h1]
      exact ⟨fun k t hg => Option.noConfusion hg, hq⟩
    · rw [if_neg h1]
      exact ⟨ht, hq⟩
  | publishCall msg selectsDone =>
    have hm : msg.ID ≠ msgID := he
    refine ⟨?_, fun inv hinv => absurd hinv (List.not_mem_nil inv)⟩
    show (b.Publish msg selectsDone).1.NoPendingFor msgID
    have hf : (b.Publish msg selectsDone).1.deliveryTimers = b.deliveryTimers ∧
        ((b.Publish msg selectsDone).1.pendingMessages = b.pendingMessages ∨
          (b.Publish msg selectsDone).1.pendingMessages = b.pendingMessages ++ [msg]) := by
      unfold MessageBroker.Publish
      by_cases h0 : b.running = 0
      · simp [h0]
      · by_cases hc : (b.ctxDone && selectsDone) = true
        · simp [h0, hc]
        · simp [h0, hc]
    refine ⟨?_, ?_⟩
    · intro k t hg
      rw [hf.1] at hg
      exact ht k t hg
    · intro m hmem
      rcases hf.2 with hsame | happ
      · rw [hsame] at hmem
        exact hq m hmem
      · rw [happ] at hmem
        rcases List.mem_append.mp hmem with h1 | h2
        · exact hq m h1
        · rw [List.mem_singleton.mp h2]
          exact hm
  | dispatchNext now =>
    cases hp : b.pendingMessages with
    | nil =>
      have hstep : b.step (BrokerEvent.dispatchNext now) = (b, []) := by
        simp [MessageBroker.step, hp]
      rw [hstep]
      exact ⟨⟨ht, hq⟩, fun inv hinv => absurd hinv (List.not_mem_nil inv)⟩
    | cons msg rest =>
      have hm : msg.ID ≠ msgID := hq msg (by rw [hp]; exact List.mem_cons_self _ _)
      have hrest : ∀ m ∈ rest, m.ID ≠ msgID := fun m hmem =>
        hq m (by rw [hp]; exact List.mem_cons_of_mem _ hmem)
      by_cases hctx : b.ctxDone = true
      · have hstep : b.step (BrokerEvent.dispatchNext now) =
            ({ b with pendingMessages := rest }, []) := by
          simp [MessageBroker.step, hp, hctx]
        rw [hstep]
        exact ⟨⟨ht, hrest⟩, fun inv hinv => absurd hinv (List.not_mem_nil inv)⟩
      · have hstep : b.step (BrokerEvent.dispatchNext now) =
            ({ b with pendingMessages := rest }).distributeMessage msg now := by
          simp [MessageBroker.step, hp, hctx]
        rw [hstep]
        exact distribute_noPendingFor { b with pendingMessages := rest } msg now msgID
          ht hrest hm
  | timerFire msgID2 =>
    cases hg : b.deliveryTimers.Get msgID2 with
    | none =>
      have hstep : b.step (BrokerEvent.timerFire msgID2) = (b, []) := by
        simp [MessageBroker.step, hg]
      rw [hstep]
      exact ⟨⟨ht, hq⟩, fun inv hinv => absurd hinv (List.not_mem_nil inv)⟩
    | some timer =>
      have htm : timer.msg.ID ≠ msgID := ht msgID2 timer hg
      by_cases hf : timer.fired = true
      · have hstep : b.step (BrokerEvent.timerFire msgID2) = (b, []) := by
          simp [MessageBroker.step, hg, hf]
        rw [hstep]
        exact ⟨⟨ht, hq⟩, fun inv hinv => absurd hinv (List.not_mem_nil inv)⟩
      · have hstep : b.step (BrokerEvent.timerFire msgID2) =
            MessageBroker.sendToSubscriber
              { b with deliveryTimers := b.deliveryTimers.Delete timer.msg.ID }
              timer.msg := by
          simp [MessageBroker.step, hg, hf]
        rw [hstep]
        have hp2 := sendToSubscriber_parts
          { b with deliveryTimers := b.deliveryTimers.Delete timer.msg.ID } timer.msg
        refine ⟨⟨?_, ?_⟩, ?_⟩
        · intro k t hg2
          rw [hp2.1] at hg2
          have hg3 : (b.deliveryTimers.Delete timer.msg.ID).Get k = some t := hg2
          by_cases hk : k = timer.msg.ID
          · subst hk
            rw [SMap.Get_Delete_self] at hg3
            cases hg3
          · rw [SMap.Get_Delete_ne _ _ _ hk] at hg3
            exact ht k t hg3
        · intro m hmem
          rw [hp2.2.1] at hmem
          exact hq m hmem
        · intro inv hinv
          rw [hp2.2.2 inv hinv]
          exact htm
  | cancelCall msgID2 =>
    cases hg : b.deliveryTimers.Get msgID2 with
    | none =>
      have hstep : b.step (BrokerEvent.cancelCall msgID2) = (b, []) := by
        simp [MessageBroker.step, MessageBroker.CancelDelayedMessage, hg]
      rw [hstep]
      exact ⟨⟨ht, hq⟩, fun inv hinv => absurd hinv (List.not_mem_nil inv)⟩
    | some timer =>
      have hstep : b.step (BrokerEvent.cancelCall msgID2) =
          ({ b with deliveryTimers := b.deliveryTimers.Delete msgID2 }, []) := by
        simp [MessageBroker.step, MessageBroker.CancelDelayedMessage, hg]
      rw [hstep]
      refine ⟨⟨?_, hq⟩, fun inv hinv => absurd hinv (List.not_mem_nil inv)⟩
      intro k t hg2
      have hg3 : (b.deliveryTimers.Delete msgID2).Get k = some t := hg2
      by_cases hk : k = msgID2
      · subst hk
        rw [SMap.Get_Delete_self] at hg3
        cases hg3
      · rw [SMap.Get_Delete_ne _ _ _ hk] at hg3
        exact ht k t hg3

/-- Running any id-avoiding event sequence from a state with nothing
pending for the id spawns no invocation for it. -/
theorem run_noPendingFor (msgID : String) :
    ∀ (events : List BrokerEvent) (b : MessageBroker),
      b.NoPendingFor msgID → (∀ e ∈ events, eventAvoids msgID e) →
      ∀ inv ∈ (b.run events).2, inv.2.ID ≠ msgID
  | [], _, _, _, _, hinv => by cases hinv
  | e :: es, b, h, he, inv, hinv => by
    have hstep := step_noPendingFor b msgID e h (he e (List.mem_cons_self _ _))
    simp only [MessageBroker.run, List.mem_append] at hinv
    rcases hinv with h1 | h2
    · exact hstep.2 inv h1
    · exact run_noPendingFor msgID es _ hstep.1
        (fun x hx => he x (List.mem_cons_of_mem _ hx)) inv h2

/-- C7: CancelDelayedMessage returns true exactly when a still-unfired
timer for the id is present, so the stop preceded the firing; with no
pending timer it is a no-op returning false; and after a cancel that
returned true, no subsequent events - provided none republishes that id
and no other pending carrier of the id exists - ever spawn a handler
invocation for that message. -/
theorem c7_cancel_delayed_message (b : MessageBroker) (msgID : String) :
    ((b.CancelDelayedMessage msgID).2 = true ↔
      ∃ t : GoTimer, b.deliveryTimers.Get msgID = some t ∧ t.fired = false) ∧
    (b.deliveryTimers.Get msgID = none → b.CancelDelayedMessage msgID = (b, false)) ∧
    (∀ events : List BrokerEvent,
      (b.CancelDelayedMessage msgID).2 = true →
      (∀ (k : String) (t : GoTimer), k ≠ msgID → b.deliveryTimers.Get k = some t →
        t.msg.ID ≠ msgID) →
      (∀ m ∈ b.pendingMessages, m.ID ≠ msgID) →
      (∀ e ∈ events, eventAvoids msgID e) →
      ∀ inv ∈ ((b.CancelDelayedMessage msgID).1.run events).2, inv.2.ID ≠ msgID) := by
  refine ⟨?_, ?_, ?_⟩
  · unfold MessageBroker.CancelDelayedMessage
    cases hg : b.deliveryTimers.Get msgID with
    | none => simp
    | some timer =>
      simp only [GoTimer.Stop]
      cases hf : timer.fired with
      | false => simp [hf]
      | true => simp [hf]
  · intro hg
    unfold MessageBroker.CancelDelayedMessage
    rw [hg]
  · intro events hc hother hqueue he
    cases hg : b.deliveryTimers.Get msgID with
    | none =>
      rw [show b.CancelDelayedMessage msgID = (b, false) from by
        unfold MessageBroker.CancelDelayedMessage; rw [hg]] at hc
      cases hc
    | some timer =>
      have hstate : (b.CancelDelayedMessage msgID).1 =
          { b with deliveryTimers := b.deliveryTimers.Delete msgID } := by
        unfold MessageBroker.CancelDelayedMessage
        rw [hg]
      rw [hstate]
      refine run_noPendingFor msgID events _ ⟨?_, hqueue⟩ he
      intro k t hg2
      have hg3 : (b.deliveryTimers.Delete msgID).Get k = some t := hg2
      by_cases hk : k = msgID
      · subst hk
        rw [SMap.Get_Delete_self] at hg3
        cases hg3
      · rw [SMap.Get_Delete_ne _ _ _ hk] at hg3
        exact hother k t hk hg3

/-- Delayed message for the C7 witness. -/
def timedMsg : Message := (NewMessage "top" [] 1).SetDelay 7

/-- Fresh broker with an armed delivery timer for the delayed message, for
the C7 witness. -/
def brokerWithTimer : MessageBroker :=
  { NewMessageBroker none with
      deliveryTimers := (NewMessageBroker none).deliveryTimers.Set timedMsg.ID
        { msg := timedMsg, fired := false } }

/-- Witness for C7: on the broker with one armed timer, cancelling returns
true and a subsequent timer-fire plus dispatch spawn no invocation for the
cancelled message. -/
theorem c7_cancel_delayed_message_witness :
    (brokerWithTimer.CancelDelayedMessage timedMsg.ID).2 = true ∧
    ∀ inv ∈ ((brokerWithTimer.CancelDelayedMessage timedMsg.ID).1.run
      [BrokerEvent.timerFire timedMsg.ID, BrokerEvent.dispatchNext 0]).2,
      inv.2.ID ≠ timedMsg.ID := by
  constructor
  · exact (c7_cancel_delayed_message brokerWithTimer timedMsg.ID).1.mpr
      ⟨{ msg := timedMsg, fired := false }, rfl, rfl⟩
  · refine (c7_cancel_delayed_message brokerWithTimer timedMsg.ID).2.2
      [BrokerEvent.timerFire timedMsg.ID, BrokerEvent.dispatchNext 0]
      ((c7_cancel_delayed_message brokerWithTimer timedMsg.ID).1.mpr
        ⟨{ msg := timedMsg, fired := false }, rfl, rfl⟩) ?_ ?_ ?_
    · intro k t hk hgt
      simp only [brokerWithTimer, NewMessageBroker, SMap.Get, SMap.Set, SMap.empty,
        if_neg hk] at hgt
      cases hgt
    · intro m hm
      simp only [brokerWithTimer, NewMessageBroker] at hm
      cases hm
    · intro e he2
      rcases List.mem_cons.mp he2 with rfl | he3
      · trivial
      · rcases List.mem_cons.mp he3 with rfl | he4
        · trivial
        · cases he4

end MyGo
